import Mathlib

/-
Verification of the update-checker subsystem of geobuild (src/build.py).

The embedding models the Python code as pure Lean functions:
  * JSON values returned by the GitHub API are an inductive `Json`;
  * the network is an oracle `Net : String → Option Json` mapping a URL to
    the parsed JSON body of a successful response (`none` models a failed
    request, i.e. `not r.ok` in `_gh_request`);
  * Python exceptions are modelled with `Except PyErr`;
  * printed lines are collected in a list of `OutLine` values (one
    constructor per `print` call in the source, carrying the data that is
    interpolated into the message);
  * the mutable `Build` object state relevant to the checker is `BuildSt`
    (`checked_updates` flag, dependency registry `deps`, and the contents
    of the project's CMakeLists.txt, `none` when the file is missing so
    that `read_text()` raises FileNotFoundError);
  * the thread fan-out of `check_for_updates` is modelled by running the
    workers sequentially in spawn order (a canonical schedule); an
    uncaught exception inside a worker is rendered as a `threadException`
    line (Python's threading excepthook prints a traceback and the other
    threads keep running), matching that it does not propagate into
    `check_for_updates` itself.
-/

namespace Geobuild

/-- JSON values, the universe of parsed response bodies (`r.json()`). -/
inductive Json where
  | str (s : String)
  | num (n : Int)
  | arr (elems : List Json)
  | obj (fields : List (String × Json))
  | null

/-- Python exceptions that the modelled code can raise. -/
inductive PyErr where
  | keyError (k : String)
  | typeError
  | fileNotFoundError
deriving DecidableEq, Repr

/-- CPM dependency privacy, from cmake.py's Privacy enum. -/
inductive Privacy where
  | PRIVATE
  | PUBLIC
  | INTERFACE
deriving DecidableEq, Repr

/-- A declared dependency (class CPMDep): name, repository URL, pin (`tag`),
options and privacy. -/
structure CPMDep where
  name : String
  repo : String
  tag : String
  options : List (String × String)
  privacy : Privacy
deriving DecidableEq, Repr

/-- One printed line, a constructor per `print` in the update-check code. -/
inductive OutLine where
  | warnNoRequests
  | checking
  | requestFailed (url : String)
  | noTags (repo : String)
  | noCommits (repo : String)
  | failedRelease (repo : String)
  | failedCommit (repo : String)
  | updateAvailable (name : String) (cur : String) (lat : Json)
  | upToDate (name : String) (lat : Json)
  | threadException (e : PyErr)
  | completeLine

/-- Network oracle: URL to parsed JSON of a successful response; `none`
models a request failure (non-ok status). -/
def Net : Type := String → Option Json

/-- Python truthiness (`if not x`) of a JSON value. -/
def Json.truthy : Json → Bool
  | .str s => !s.data.isEmpty
  | .num n => n != 0
  | .arr elems => !elems.isEmpty
  | .obj fields => !fields.isEmpty
  | .null => false

/-- Whether a JSON value is a list. -/
def Json.isArr : Json → Bool
  | .arr _ => true
  | _ => false

/-- First-match association lookup, Python dict indexing on parsed JSON. -/
def lookupField : List (String × Json) → String → Option Json
  | [], _ => none
  | (k, v) :: t, key => if k = key then some v else lookupField t key

/-- Python `x[key]` on a JSON value: KeyError on a dict without the key,
TypeError when the value is not a dict. -/
def Json.getItem (j : Json) (key : String) : Except PyErr Json :=
  match j with
  | .obj fields =>
    match lookupField fields key with
    | some v => .ok v
    | none => .error (.keyError key)
  | _ => .error .typeError

/-- Python `s[:n]` on a str. -/
def pyStrTake (s : String) (n : Nat) : String :=
  String.mk (s.data.take n)

/-- Python `len(x)` on a JSON value: TypeError on numbers and null. -/
def Json.pyLen : Json → Except PyErr Nat
  | .str s => .ok s.length
  | .arr elems => .ok elems.length
  | .obj fields => .ok fields.length
  | _ => .error .typeError

/-- Python `x[:n]` on a JSON value: TypeError except on strings and lists. -/
def Json.pySlice (j : Json) (n : Nat) : Except PyErr Json :=
  match j with
  | .str s => .ok (.str (pyStrTake s n))
  | .arr elems => .ok (.arr (elems.take n))
  | _ => .error .typeError

/-- Python `s != j` where `s` is a str and `j` an arbitrary value: unequal
types are never equal. -/
def pyNeStrJson (s : String) (j : Json) : Bool :=
  match j with
  | .str t => s != t
  | _ => true

/-- Python `c in s` for a single character. -/
def pyInChar (c : Char) (s : String) : Bool :=
  s.data.contains c

/-- Fuel-driven worker for `pyReplace`; the fuel starts at the length of the
list and strictly bounds the recursion depth (at least one character is
consumed per step), so it never runs out on the initial call. -/
def pyReplaceFuel (pat rep : List Char) : Nat → List Char → List Char
  | _, [] => []
  | 0, l => l
  | n + 1, c :: t =>
    if pat ≠ [] ∧ pat.isPrefixOf (c :: t) then
      rep ++ pyReplaceFuel pat rep n (List.drop (pat.length - 1) t)
    else
      c :: pyReplaceFuel pat rep n t

/-- Python `str.replace(pat, rep)`: replace every non-overlapping occurrence
of `pat`, scanning left to right. -/
def pyReplace (pat rep l : List Char) : List Char :=
  pyReplaceFuel pat rep l.length l

/-- Index of the first occurrence of `needle` in `hay` (Python `str.index`,
with `none` standing for the `not in` case). -/
def firstIndexOf (needle : List Char) : List Char → Option Nat
  | [] => if needle.isEmpty then some 0 else none
  | c :: t =>
    if needle.isPrefixOf (c :: t) then some 0
    else (firstIndexOf needle t).map (· + 1)

/-- Python `str.strip()`: drop leading and trailing whitespace. -/
def pyStrip (l : List Char) : List Char :=
  ((l.dropWhile Char.isWhitespace).reverse.dropWhile Char.isWhitespace).reverse

/-- The URL transform shared by `get_last_gh_release` and
`get_last_gh_commit`:
`repo.replace(".git", "").replace("github.com", "api.github.com/repos") + suffix`.
Python's `str.replace` replaces every occurrence, so `ghTransform` does too. -/
def ghTransform (repo suffix : String) : String :=
  String.mk
    (pyReplace "github.com".data "api.github.com/repos".data
      (pyReplace ".git".data [] repo.data) ++ suffix.data)

/-- Result of running a piece of the checker: the value produced (or the
Python exception raised), the URLs requested so far, and the lines printed
so far. -/
structure RunResult (α : Type) where
  result : Except PyErr α
  requests : List String
  output : List OutLine

/-- Body of `get_last_gh_release(repo)`: one GET to the `/tags` endpoint via
`_gh_request` (which prints and yields None on a failed request), then
`tags[0]["name"]` behind the non-empty-list guard. The `Except` captures
that `tags[0]["name"]` raises when the first element is not a dict or lacks
the field. -/
def get_last_gh_release (net : Net) (repo : String) : RunResult (Option Json) :=
  let url := ghTransform repo "/tags"
  match net url with
  | none =>
    ⟨.ok none, [url], [.requestFailed url, .noTags repo]⟩
  | some tags =>
    match tags with
    | .arr (first :: _) =>
      match first.getItem "name" with
      | .ok v => ⟨.ok (some v), [url], []⟩
      | .error e => ⟨.error e, [url], []⟩
    | _ =>
      ⟨.ok none, [url], [.noTags repo]⟩

/-- Body of `get_last_gh_commit(repo)`: same transform targeting `/commits`,
returning `commits[0]["sha"]`. -/
def get_last_gh_commit (net : Net) (repo : String) : RunResult (Option Json) :=
  let url := ghTransform repo "/commits"
  match net url with
  | none =>
    ⟨.ok none, [url], [.requestFailed url, .noCommits repo]⟩
  | some commits =>
    match commits with
    | .arr (first :: _) =>
      match first.getItem "sha" with
      | .ok v => ⟨.ok (some v), [url], []⟩
      | .error e => ⟨.error e, [url], []⟩
    | _ =>
      ⟨.ok none, [url], [.noCommits repo]⟩

/-- The pin classification local `use_tag = '.' in dep.tag or 'v' in dep.tag`
from `do_fetch`. -/
def use_tag (dep : CPMDep) : Bool :=
  pyInChar '.' dep.tag || pyInChar 'v' dep.tag

/-- Worker body `do_fetch(dep)` from `check_for_updates`: classify the pin
(`'.' in dep.tag or 'v' in dep.tag`), resolve the latest tag or commit,
then compare — full strings on the tag path, both sides truncated to
`min(len(dep.tag), len(commit))` on the commit path — and print one report
line. `if not tag:` / `if not commit:` are Python truthiness tests. -/
def do_fetch (net : Net) (dep : CPMDep) : RunResult Unit :=
  if use_tag dep then
    let r := get_last_gh_release net dep.repo
    match r.result with
    | .error e => ⟨.error e, r.requests, r.output⟩
    | .ok none =>
      ⟨.ok (), r.requests, r.output ++ [.failedRelease dep.repo]⟩
    | .ok (some tag) =>
      if tag.truthy = false then
        ⟨.ok (), r.requests, r.output ++ [.failedRelease dep.repo]⟩
      else if pyNeStrJson dep.tag tag then
        ⟨.ok (), r.requests, r.output ++ [.updateAvailable dep.name dep.tag tag]⟩
      else
        ⟨.ok (), r.requests, r.output ++ [.upToDate dep.name tag]⟩
  else
    let r := get_last_gh_commit net dep.repo
    match r.result with
    | .error e => ⟨.error e, r.requests, r.output⟩
    | .ok none =>
      ⟨.ok (), r.requests, r.output ++ [.failedCommit dep.repo]⟩
    | .ok (some commit) =>
      if commit.truthy = false then
        ⟨.ok (), r.requests, r.output ++ [.failedCommit dep.repo]⟩
      else
        match commit.pyLen with
        | .error e => ⟨.error e, r.requests, r.output⟩
        | .ok clen =>
          let shortest_len := min dep.tag.length clen
          match commit.pySlice shortest_len with
          | .error e => ⟨.error e, r.requests, r.output⟩
          | .ok latest =>
            let current := pyStrTake dep.tag shortest_len
            if pyNeStrJson current latest then
              ⟨.ok (), r.requests, r.output ++ [.updateAvailable dep.name current latest]⟩
            else
              ⟨.ok (), r.requests, r.output ++ [.upToDate dep.name latest]⟩

/-- The literal marker scanned for in `_make_self_dependency`. -/
def geobuildMarker : String := "dankmeme01/geobuild"

/-- Body of `_make_self_dependency()`: read CMakeLists.txt (raises
FileNotFoundError when missing, modelled by `none`), scan for the marker,
take the text after marker-plus-one-character up to the next double quote
(`partition` keeps everything when there is no quote), strip it, and build
the synthetic geobuild dependency unless the result is empty. -/
def _make_self_dependency (cmakeText : Option String) : Except PyErr (Option CPMDep) :=
  match cmakeText with
  | none => .error .fileNotFoundError
  | some cmake =>
    match firstIndexOf geobuildMarker.data cmake.data with
    | none => .ok none
    | some idx =>
      let remainder := cmake.data.drop (idx + geobuildMarker.data.length + 1)
      let ver := remainder.takeWhile (fun c => c != '"')
      let version := if ver.isEmpty then [] else pyStrip ver
      if version.isEmpty then .ok none
      else
        .ok (some
          { name := "geobuild"
            repo := "https://github.com/dankmeme01/geobuild"
            tag := String.mk version
            options := []
            privacy := .PRIVATE })

/-- The `Build` object state the checker reads and writes: the
once-per-process guard flag, the dependency registry (`self._cmake.deps`),
and the contents of the project's CMakeLists.txt (`none` when the file does
not exist). -/
structure BuildSt where
  checked_updates : Bool
  deps : List CPMDep
  cmakeText : Option String
deriving DecidableEq, Repr

/-- Outcome of a `check_for_updates` call: the returned value (or raised
exception), the updated object state, all URLs requested, and all lines
printed. -/
structure CheckResult where
  result : Except PyErr Bool
  state : BuildSt
  requests : List String
  output : List OutLine

/-- One spawned thread running `do_fetch`: an exception escaping the worker
is printed by the thread machinery (`threadException`) and does not
propagate to the caller. -/
def runThread (net : Net) (dep : CPMDep) : List String × List OutLine :=
  let r := do_fetch net dep
  match r.result with
  | .ok _ => (r.requests, r.output)
  | .error e => (r.requests, r.output ++ [.threadException e])

/-- Run all spawned threads, collecting requests and output in spawn order
(the canonical schedule of the fork-join fan-out). -/
def runThreads (net : Net) : List CPMDep → List String × List OutLine
  | [] => ([], [])
  | d :: ds =>
    let r := runThread net d
    let rs := runThreads net ds
    (r.1 ++ rs.1, r.2 ++ rs.2)

/-- Body of `check_for_updates()`: abort with a warning when the `requests`
module is unavailable; return False when the guard flag is already set;
otherwise set the flag, print the banner, build one worker per registered
dependency plus the synthetic self dependency (the probe runs on the main
thread, so its FileNotFoundError propagates out of the call), join all
workers and print the elapsed-time line, returning True. -/
def check_for_updates (requestsAvailable : Bool) (net : Net) (st : BuildSt) : CheckResult :=
  if requestsAvailable = false then
    ⟨.ok false, st, [], [.warnNoRequests]⟩
  else if st.checked_updates then
    ⟨.ok false, st, [], []⟩
  else
    let st2 : BuildSt := { st with checked_updates := true }
    match _make_self_dependency st.cmakeText with
    | .error e => ⟨.error e, st2, [], [.checking]⟩
    | .ok selfDep =>
      let allDeps := st.deps ++ (match selfDep with | some d => [d] | none => [])
      let run := runThreads net allDeps
      ⟨.ok true, st2, run.1, .checking :: (run.2 ++ [.completeLine])⟩

/-- The list-tags endpoint built the way the claim describes it: strip only
a TRAILING `.git` suffix, leave any other occurrence intact, then rewrite
the host segment and append `/tags`. Stated from the spec's words for
comparison with the code's `ghTransform`. -/
def specTagsUrl (repo : String) : String :=
  String.mk
    (pyReplace "github.com".data "api.github.com/repos".data
      (if ".git".data.isSuffixOf repo.data then repo.data.take (repo.data.length - 4)
       else repo.data) ++ "/tags".data)

/-- Network oracle on which every request fails. -/
def net0 : Net := fun _ => none

/-- Network oracle used as a concrete fixture: a tag list for one
repository and a commit list for another, every other request failing. -/
def net1 : Net := fun u =>
  if u = "https://api.github.com/repos/a/b/tags" then
    some (.arr [.obj [("name", .str "v1.2.1")]])
  else if u = "https://api.github.com/repos/a/c/commits" then
    some (.arr [.obj [("sha", .str "abc123def456")]])
  else none

/-- Network oracle resolving one repository's latest commit to a sha that
is SHORTER than the dependency's pin. -/
def netShaShort : Net := fun u =>
  if u = "https://api.github.com/repos/a/d/commits" then
    some (.arr [.obj [("sha", .str "abc")]])
  else none

/-- Network oracle for the C10 witness: a commit list whose first sha
differs from the pin within the compared prefix. -/
def netShaDiff : Net := fun u =>
  if u = "https://api.github.com/repos/a/e/commits" then
    some (.arr [.obj [("sha", .str "00aabbcc11223344")]])
  else none

/-- Network oracle returning a tag list whose first element lacks the
"name" field. -/
def netMalformed : Net := fun u =>
  if u = "https://api.github.com/repos/a/m/tags" then some (.arr [.obj []]) else none

/-- A tag-pinned dependency fixture. -/
def depB : CPMDep := ⟨"b", "https://github.com/a/b.git", "v1.2.0", [], .PRIVATE⟩

/-- A commit-pinned dependency fixture with an abbreviated pin. -/
def depC : CPMDep := ⟨"c", "https://github.com/a/c.git", "abc123", [], .PRIVATE⟩

/-- Commit-pinned dependency fixture whose pin is longer than the resolved
sha. -/
def depLongPin : CPMDep := ⟨"d", "https://github.com/a/d.git", "abc123def4", [], .PRIVATE⟩

/-- Commit-pinned dependency fixture for the C10 witness. -/
def depE : CPMDep := ⟨"e", "https://github.com/a/e.git", "00ff", [], .PRIVATE⟩

/-- Tag-pinned dependency fixture pointing at the malformed response. -/
def depM : CPMDep := ⟨"m", "https://github.com/a/m.git", "v1.0.0", [], .PRIVATE⟩

/-- A first-call state with no declared dependencies and a marker-free
CMakeLists.txt. -/
def stIdle : BuildSt := ⟨false, [], some "project()"⟩

/-- Configuration text fixture containing the marker pattern with pin
v2.3.0. -/
def cmakeEx : String := "CPMAddPackage(\"gh:dankmeme01/geobuild@v2.3.0\")"

/-- Configuration text fixture in which the self probe finds a pin. -/
def cmakeSelfPin : String := "\"dankmeme01/geobuild@v1.0.0\""

lemma gr_requests (net : Net) (repo : String) :
    (get_last_gh_release net repo).requests = [ghTransform repo "/tags"] := by
  unfold get_last_gh_release
  dsimp only
  split
  · rfl
  · split
    · split <;> rfl
    · rfl

lemma gc_requests (net : Net) (repo : String) :
    (get_last_gh_commit net repo).requests = [ghTransform repo "/commits"] := by
  unfold get_last_gh_commit
  dsimp only
  split
  · rfl
  · split
    · split <;> rfl
    · rfl

lemma do_fetch_requests_tag (net : Net) (dep : CPMDep) (h : use_tag dep = true) :
    (do_fetch net dep).requests = [ghTransform dep.repo "/tags"] := by
  have hr := gr_requests net dep.repo
  unfold do_fetch
  simp only [h, if_true]
  generalize hg : get_last_gh_release net dep.repo = r at hr ⊢
  obtain ⟨res, reqs, out⟩ := r
  rcases res with e | o
  · exact hr
  · rcases o with _ | tag
    · exact hr
    · dsimp only
      repeat' split
      all_goals exact hr

lemma do_fetch_requests_commit (net : Net) (dep : CPMDep) (h : use_tag dep = false) :
    (do_fetch net dep).requests = [ghTransform dep.repo "/commits"] := by
  have hr := gc_requests net dep.repo
  unfold do_fetch
  simp only [h, if_false, Bool.false_eq_true]
  generalize hg : get_last_gh_commit net dep.repo = r at hr ⊢
  obtain ⟨res, reqs, out⟩ := r
  rcases res with e | o
  · exact hr
  · rcases o with _ | commit
    · exact hr
    · dsimp only
      repeat' split
      all_goals exact hr

lemma get_last_gh_release_first (net : Net) (repo : String) (first : Json) (rest : List Json) (v : Json)
    (hnet : net (ghTransform repo "/tags") = some (.arr (first :: rest)))
    (hget : first.getItem "name" = .ok v) :
    get_last_gh_release net repo = ⟨.ok (some v), [ghTransform repo "/tags"], []⟩ := by
  unfold get_last_gh_release
  dsimp only
  rw [hnet]
  dsimp only
  rw [hget]

lemma get_last_gh_commit_first (net : Net) (repo : String) (first : Json) (rest : List Json) (v : Json)
    (hnet : net (ghTransform repo "/commits") = some (.arr (first :: rest)))
    (hget : first.getItem "sha" = .ok v) :
    get_last_gh_commit net repo = ⟨.ok (some v), [ghTransform repo "/commits"], []⟩ := by
  unfold get_last_gh_commit
  dsimp only
  rw [hnet]
  dsimp only
  rw [hget]

lemma do_fetch_tag_output (net : Net) (dep : CPMDep) (t : String) (rest : List Json)
    (hclass : use_tag dep = true)
    (hnet : net (ghTransform dep.repo "/tags") = some (.arr (.obj [("name", .str t)] :: rest)))
    (hne : t.data.isEmpty = false) :
    (do_fetch net dep).output =
      [if dep.tag = t then OutLine.upToDate dep.name (.str t)
       else OutLine.updateAvailable dep.name dep.tag (.str t)] := by
  have hg := get_last_gh_release_first net dep.repo (.obj [("name", .str t)]) rest (.str t)
    hnet (by simp [Json.getItem, lookupField])
  unfold do_fetch
  simp only [hclass, if_true, hg]
  simp only [Json.truthy, hne, Bool.not_false]
  by_cases he : dep.tag = t
  · simp [pyNeStrJson, he]
  · simp [pyNeStrJson, he]

lemma do_fetch_commit_output (net : Net) (dep : CPMDep) (c : String) (rest : List Json)
    (hclass : use_tag dep = false)
    (hnet : net (ghTransform dep.repo "/commits") = some (.arr (.obj [("sha", .str c)] :: rest)))
    (hne : c.data.isEmpty = false) :
    (do_fetch net dep).output =
      [if pyStrTake dep.tag (min dep.tag.length c.length) =
          pyStrTake c (min dep.tag.length c.length) then
         OutLine.upToDate dep.name (.str (pyStrTake c (min dep.tag.length c.length)))
       else
         OutLine.updateAvailable dep.name (pyStrTake dep.tag (min dep.tag.length c.length))
           (.str (pyStrTake c (min dep.tag.length c.length)))] := by
  have hg := get_last_gh_commit_first net dep.repo (.obj [("sha", .str c)]) rest (.str c)
    hnet (by simp [Json.getItem, lookupField])
  unfold do_fetch
  simp only [hclass, if_false, Bool.false_eq_true, hg]
  simp only [Json.truthy, hne, Bool.not_false, Json.pyLen, Json.pySlice]
  by_cases he : pyStrTake dep.tag (min dep.tag.length c.length) =
      pyStrTake c (min dep.tag.length c.length)
  · simp [pyNeStrJson, he]
  · simp [pyNeStrJson, he]

lemma get_last_gh_release_keyerror (net : Net) (repo : String)
    (fields : List (String × Json)) (rest : List Json)
    (hnet : net (ghTransform repo "/tags") = some (.arr (.obj fields :: rest)))
    (hlook : lookupField fields "name" = none) :
    get_last_gh_release net repo =
      ⟨.error (.keyError "name"), [ghTransform repo "/tags"], []⟩ := by
  unfold get_last_gh_release
  dsimp only
  rw [hnet]
  dsimp only
  simp [Json.getItem, hlook]

lemma check_unavailable (net : Net) (st : BuildSt) :
    check_for_updates false net st = ⟨.ok false, st, [], [.warnNoRequests]⟩ := rfl

lemma check_guard (net : Net) (st : BuildSt) (h : st.checked_updates = true) :
    check_for_updates true net st = ⟨.ok false, st, [], []⟩ := by
  unfold check_for_updates
  simp [h]

lemma check_raise (net : Net) (st : BuildSt) (e : PyErr)
    (hchk : st.checked_updates = false)
    (hself : _make_self_dependency st.cmakeText = .error e) :
    check_for_updates true net st =
      ⟨.error e, { st with checked_updates := true }, [], [.checking]⟩ := by
  unfold check_for_updates
  simp [hchk, hself]

lemma check_run (net : Net) (st : BuildSt) (selfDep : Option CPMDep)
    (hchk : st.checked_updates = false)
    (hself : _make_self_dependency st.cmakeText = .ok selfDep) :
    check_for_updates true net st =
      ⟨.ok true, { st with checked_updates := true },
        (runThreads net (st.deps ++ (match selfDep with | some d => [d] | none => []))).1,
        .checking ::
          ((runThreads net (st.deps ++ (match selfDep with | some d => [d] | none => []))).2 ++
            [.completeLine])⟩ := by
  cases selfDep with
  | none => unfold check_for_updates; simp [hchk, hself]
  | some d => unfold check_for_updates; simp [hchk, hself]

lemma make_self_dependency_ok (t : String) :
    ∃ o, _make_self_dependency (some t) = Except.ok o := by
  unfold _make_self_dependency
  dsimp only
  cases h : firstIndexOf geobuildMarker.data t.data with
  | none => exact ⟨none, rfl⟩
  | some idx =>
    dsimp only
    repeat' split
    all_goals first
      | exact ⟨none, rfl⟩
      | exact ⟨some _, rfl⟩

/-- Claim C1: a tag-based pin is compared with the resolved tag as opaque
strings in full (pin v1.2.0 against resolved v1.2.1 reports an update),
while a commit-based pin and the resolved commit are each truncated to the
first min(len(pin), len(resolved)) characters before the equality check
(pin abc123 against resolved abc123def456 compares abc123 to abc123 and
reports up to date). -/
theorem tag_pins_compare_full_commit_pins_compare_truncated
    (net : Net) (dep1 dep2 : CPMDep) (t c : String) (rest1 rest2 : List Json)
    (h1 : use_tag dep1 = true)
    (hnet1 : net (ghTransform dep1.repo "/tags") = some (.arr (.obj [("name", .str t)] :: rest1)))
    (htne : t.data.isEmpty = false)
    (h2 : use_tag dep2 = false)
    (hnet2 : net (ghTransform dep2.repo "/commits") = some (.arr (.obj [("sha", .str c)] :: rest2)))
    (hcne : c.data.isEmpty = false) :
    (do_fetch net dep1).output =
      [if dep1.tag = t then OutLine.upToDate dep1.name (.str t)
       else OutLine.updateAvailable dep1.name dep1.tag (.str t)] ∧
    (do_fetch net dep2).output =
      [if pyStrTake dep2.tag (min dep2.tag.length c.length) =
          pyStrTake c (min dep2.tag.length c.length) then
         OutLine.upToDate dep2.name (.str (pyStrTake c (min dep2.tag.length c.length)))
       else
         OutLine.updateAvailable dep2.name (pyStrTake dep2.tag (min dep2.tag.length c.length))
           (.str (pyStrTake c (min dep2.tag.length c.length)))] :=
  ⟨do_fetch_tag_output net dep1 t rest1 h1 hnet1 htne,
   do_fetch_commit_output net dep2 c rest2 h2 hnet2 hcne⟩

theorem C1_witness :
    (do_fetch net1 depB).output = [.updateAvailable "b" "v1.2.0" (.str "v1.2.1")] ∧
    (do_fetch net1 depC).output = [.upToDate "c" (.str "abc123")] := by
  have h := tag_pins_compare_full_commit_pins_compare_truncated net1 depB depC
    "v1.2.1" "abc123def456" [] [] rfl rfl rfl rfl rfl rfl
  exact ⟨h.1, h.2⟩

/-- Claim C2: for every dependency, a pin containing '.' or 'v' sends the
worker down the tag-resolution path — the list-tags endpoint is the one URL
it requests — and any other pin sends it down the commit-resolution path —
the list-commits endpoint is the one URL it requests; in each case the
other path is never invoked. -/
theorem pin_classification_selects_resolution_path (net : Net) (dep : CPMDep) :
    (do_fetch net dep).requests =
      [ghTransform dep.repo (if use_tag dep then "/tags" else "/commits")] := by
  cases h : use_tag dep with
  | true =>
    rw [if_pos rfl]
    exact do_fetch_requests_tag net dep h
  | false =>
    rw [if_neg (by simp)]
    exact do_fetch_requests_commit net dep h

/-- Counterexample to claim C3 as stated: on a URL with a non-trailing
".git" occurrence the code removes every occurrence (requesting
.../u/ab/tags) while the claimed trailing-only strip keeps it
(.../u/a.gitb/tags). -/
theorem C3_counterexample :
    (get_last_gh_release net0 "https://github.com/u/a.gitb.git").requests =
      ["https://api.github.com/repos/u/ab/tags"] ∧
    specTagsUrl "https://github.com/u/a.gitb.git" = "https://api.github.com/repos/u/a.gitb/tags" ∧
    ("https://api.github.com/repos/u/ab/tags" : String) ≠
      "https://api.github.com/repos/u/a.gitb/tags" := by
  refine ⟨rfl, rfl, ?_⟩
  decide

/-- Claim C3 (amended): `get_last_gh_release` requests exactly the URL that
removes EVERY occurrence of ".git" (not only a trailing suffix) and
rewrites github.com to api.github.com/repos before appending /tags; it
returns the "name" field of the first element of a returned list, and
absent (None) when the request fails, the response is not a list, or the
list is empty. -/
theorem latest_tag_endpoint_and_result (net : Net) (repo : String) :
    (get_last_gh_release net repo).requests = [ghTransform repo "/tags"] ∧
    (net (ghTransform repo "/tags") = none →
      (get_last_gh_release net repo).result = .ok none) ∧
    (∀ (first : Json) (rest : List Json) (v : Json),
      net (ghTransform repo "/tags") = some (.arr (first :: rest)) →
      first.getItem "name" = .ok v →
      (get_last_gh_release net repo).result = .ok (some v)) ∧
    (∀ j : Json, net (ghTransform repo "/tags") = some j → j.isArr = false →
      (get_last_gh_release net repo).result = .ok none) ∧
    (net (ghTransform repo "/tags") = some (.arr []) →
      (get_last_gh_release net repo).result = .ok none) := by
  refine ⟨gr_requests net repo, ?_, ?_, ?_, ?_⟩
  · intro h
    unfold get_last_gh_release
    dsimp only
    rw [h]
  · intro first rest v hnet hget
    rw [get_last_gh_release_first net repo first rest v hnet hget]
  · intro j hnet hj
    unfold get_last_gh_release
    dsimp only
    rw [hnet]
    cases j with
    | arr elems =>
      cases elems with
      | nil => rfl
      | cons a l => simp [Json.isArr] at hj
    | str s => rfl
    | num n => rfl
    | obj fields => rfl
    | null => rfl
  · intro h
    unfold get_last_gh_release
    dsimp only
    rw [h]

theorem C3_witness :
    (get_last_gh_release net0 "https://github.com/x/y.git").requests =
      ["https://api.github.com/repos/x/y/tags"] ∧
    (get_last_gh_release net0 "https://github.com/x/y.git").result = .ok none ∧
    (get_last_gh_release net1 "https://github.com/a/b.git").result = .ok (some (.str "v1.2.1")) := by
  have h := latest_tag_endpoint_and_result net0 "https://github.com/x/y.git"
  have h2 := latest_tag_endpoint_and_result net1 "https://github.com/a/b.git"
  exact ⟨h.1, h.2.1 rfl,
    h2.2.2.1 (.obj [("name", .str "v1.2.1")]) [] (.str "v1.2.1") rfl rfl⟩

/-- Claim C4: a first completed call that returned true sets the guard
flag, and every call on a state with the flag set returns false
immediately, performs zero network requests, and leaves the state
unchanged. -/
theorem check_for_updates_runs_once (avail : Bool) (net : Net) (st : BuildSt)
    (h : (check_for_updates avail net st).result = .ok true) :
    (check_for_updates avail net st).state.checked_updates = true ∧
    (∀ (avail2 : Bool) (net2 : Net) (st2 : BuildSt), st2.checked_updates = true →
      (check_for_updates avail2 net2 st2).result = .ok false ∧
      (check_for_updates avail2 net2 st2).requests = [] ∧
      (check_for_updates avail2 net2 st2).state = st2) := by
  constructor
  · cases avail with
    | false => rw [check_unavailable] at h; simp at h
    | true =>
      cases hc : st.checked_updates with
      | true => rw [check_guard net st hc] at h; simp at h
      | false =>
        cases hself : _make_self_dependency st.cmakeText with
        | error e => rw [check_raise net st e hc hself] at h; simp at h
        | ok selfDep => rw [check_run net st selfDep hc hself]
  · intro avail2 net2 st2 h2
    cases avail2 with
    | false => rw [check_unavailable]; exact ⟨rfl, rfl, rfl⟩
    | true => rw [check_guard net2 st2 h2]; exact ⟨rfl, rfl, rfl⟩

theorem C4_witness :
    (check_for_updates true net0 (check_for_updates true net0 stIdle).state).result = .ok false ∧
    (check_for_updates true net0 (check_for_updates true net0 stIdle).state).requests = [] := by
  have h := check_for_updates_runs_once true net0 stIdle rfl
  have h2 := h.2 true net0 (check_for_updates true net0 stIdle).state h.1
  exact ⟨h2.1, h2.2.1⟩

/-- Counterexample to claim C5 as stated: with the project configuration
file missing, `check_for_updates` raises FileNotFoundError — the outcome is
neither true nor false. -/
theorem C5_counterexample :
    (check_for_updates true net0 ⟨false, [], none⟩).result = .error .fileNotFoundError := rfl

/-- Claim C5 (amended): when the configuration file exists the call returns
a boolean (true on a first call, false under the guard) and no worker
exception propagates into the call; but a missing configuration file makes
`check_for_updates` itself raise FileNotFoundError, and a malformed
response whose first list element lacks the expected field raises a
KeyError out of the worker body `do_fetch` (handled by the thread runtime,
not caught by the worker). -/
theorem check_for_updates_exception_behaviour :
    (∀ (net : Net) (st : BuildSt) (t : String), st.cmakeText = some t →
      (check_for_updates true net st).result = .ok (!st.checked_updates)) ∧
    (∀ (net : Net) (st : BuildSt), st.cmakeText = none → st.checked_updates = false →
      (check_for_updates true net st).result = .error .fileNotFoundError) ∧
    (∀ (net : Net) (dep : CPMDep) (fields : List (String × Json)) (rest : List Json),
      use_tag dep = true →
      net (ghTransform dep.repo "/tags") = some (.arr (.obj fields :: rest)) →
      lookupField fields "name" = none →
      (do_fetch net dep).result = .error (.keyError "name")) := by
  refine ⟨?_, ?_, ?_⟩
  · intro net st t ht
    cases hc : st.checked_updates with
    | true =>
      rw [check_guard net st hc]
      rfl
    | false =>
      obtain ⟨o, ho⟩ := make_self_dependency_ok t
      have hself : _make_self_dependency st.cmakeText = .ok o := by rw [ht]; exact ho
      rw [check_run net st o hc hself]
      rfl
  · intro net st ht hchk
    have hself : _make_self_dependency st.cmakeText = .error .fileNotFoundError := by
      rw [ht]
      rfl
    rw [check_raise net st .fileNotFoundError hchk hself]
  · intro net dep fields rest huse hnet hlook
    have hg := get_last_gh_release_keyerror net dep.repo fields rest hnet hlook
    unfold do_fetch
    simp only [huse, if_true, hg]

theorem C5_witness :
    (check_for_updates true net0 stIdle).result = .ok true ∧
    (check_for_updates true net0 ⟨false, [], none⟩).result = .error .fileNotFoundError ∧
    (do_fetch netMalformed depM).result = .error (.keyError "name") := by
  have h := check_for_updates_exception_behaviour
  exact ⟨h.1 net0 stIdle "project()" rfl, h.2.1 net0 ⟨false, [], none⟩ rfl rfl,
    h.2.2 netMalformed depM [] [] rfl rfl rfl⟩

/-- Claim C6: on configuration text containing the marker followed by
@v2.3.0 and a closing double quote, the self probe produces the geobuild
dependency with repository URL https://github.com/dankmeme01/geobuild and
pin v2.3.0; on text not containing the marker it returns absent; and when
the marker is present but the extracted-and-trimmed value before the next
double quote is empty it returns absent. -/
theorem probe_self_dependency_spec :
    _make_self_dependency (some cmakeEx) =
      .ok (some ⟨"geobuild", "https://github.com/dankmeme01/geobuild", "v2.3.0", [], .PRIVATE⟩) ∧
    (∀ t : String, firstIndexOf geobuildMarker.data t.data = none →
      _make_self_dependency (some t) = .ok none) ∧
    (∀ (t : String) (idx : Nat), firstIndexOf geobuildMarker.data t.data = some idx →
      pyStrip ((t.data.drop (idx + geobuildMarker.data.length + 1)).takeWhile
        (fun c => c != '"')) = [] →
      _make_self_dependency (some t) = .ok none) := by
  refine ⟨rfl, ?_, ?_⟩
  · intro t h
    unfold _make_self_dependency
    dsimp only
    rw [h]
  · intro t idx h hstrip
    unfold _make_self_dependency
    dsimp only
    rw [h]
    dsimp only
    by_cases hv : (List.takeWhile (fun c => c != '"')
        (List.drop (idx + geobuildMarker.data.length + 1) t.data)).isEmpty = true
    · rw [if_pos hv]
      rfl
    · rw [if_neg hv, hstrip]
      rfl

theorem C6_witness :
    _make_self_dependency (some "add_subdirectory(libs)") = .ok none ∧
    _make_self_dependency (some "x dankmeme01/geobuild@  \" y") = .ok none := by
  have h := probe_self_dependency_spec
  exact ⟨h.2.1 "add_subdirectory(libs)" rfl, h.2.2 "x dankmeme01/geobuild@  \" y" 2 rfl rfl⟩

/-- Counterexample to claim C7 as stated: a first call with an empty
dependency sequence still performs a network request when the self probe
finds a geobuild pin in the configuration text. -/
theorem C7_counterexample :
    (check_for_updates true net0 ⟨false, [], some cmakeSelfPin⟩).requests =
      ["https://api.github.com/repos/dankmeme01/geobuild/tags"] := rfl

/-- Claim C7 (amended): given an empty dependency sequence and a
configuration whose self probe yields no synthetic dependency, a first
call (library available) returns true, performs zero network requests, and
still prints the elapsed-time line after the banner. -/
theorem empty_deps_no_self_dep_zero_requests (net : Net) (st : BuildSt)
    (hdeps : st.deps = [])
    (hchk : st.checked_updates = false)
    (hself : _make_self_dependency st.cmakeText = .ok none) :
    check_for_updates true net st =
      ⟨.ok true, { st with checked_updates := true }, [], [.checking, .completeLine]⟩ := by
  rw [check_run net st none hchk hself, hdeps]
  rfl

theorem C7_witness :
    check_for_updates true net0 stIdle =
      ⟨.ok true, ⟨true, [], some "project()"⟩, [], [.checking, .completeLine]⟩ :=
  empty_deps_no_self_dep_zero_requests net0 stIdle rfl rfl rfl

/-- Claim C8: when the networking library is unavailable,
`check_for_updates` logs a warning and returns false with zero network
requests, whatever the state — the whole check is aborted globally. -/
theorem unavailable_requests_aborts_globally (net : Net) (st : BuildSt) :
    check_for_updates false net st = ⟨.ok false, st, [], [.warnNoRequests]⟩ :=
  check_unavailable net st

/-- Claim C9: a call that returns false because the networking library is
unavailable leaves the state — in particular the `checked_updates` guard —
unchanged, so a later call with the library available still performs the
full check and returns true. -/
theorem unavailable_call_does_not_set_guard (net : Net) (st : BuildSt) :
    (check_for_updates false net st).state = st ∧
    (∀ (net2 : Net) (t : String), st.checked_updates = false → st.cmakeText = some t →
      (check_for_updates true net2 st).result = .ok true) := by
  constructor
  · rw [check_unavailable]
  · intro net2 t hchk ht
    obtain ⟨o, ho⟩ := make_self_dependency_ok t
    have hself : _make_self_dependency st.cmakeText = .ok o := by rw [ht]; exact ho
    rw [check_run net2 st o hchk hself]

theorem C9_witness :
    (check_for_updates false net0 stIdle).state = stIdle ∧
    (check_for_updates true net0 stIdle).result = .ok true := by
  have h := unavailable_call_does_not_set_guard net0 stIdle
  exact ⟨h.1, h.2 net0 "project()" rfl rfl⟩

/-- Counterexample to claim C10 as stated: with pin abc123def4 and resolved
sha abc, the printed report line carries Json.str "abc" — exactly the full
resolved commit sha — so "never the full resolved commit sha" fails. -/
theorem C10_counterexample :
    (do_fetch netShaShort depLongPin).output = [.upToDate "d" (.str "abc")] := rfl

/-- Claim C10 (amended): for every commit-based dependency whose resolution
succeeds, the report line uses the truncated values on both sides — current
is the first min(len(pin), len(sha)) characters of the pin and latest the
first min(len(pin), len(sha)) characters of the resolved sha; the full sha
appears only in the degenerate case len(pin) ≥ len(sha), where the
truncation is the whole sha. -/
theorem commit_report_lines_use_truncated_values
    (net : Net) (dep : CPMDep) (c : String) (rest : List Json)
    (hclass : use_tag dep = false)
    (hnet : net (ghTransform dep.repo "/commits") = some (.arr (.obj [("sha", .str c)] :: rest)))
    (hne : c.data.isEmpty = false) :
    (do_fetch net dep).output =
      [if pyStrTake dep.tag (min dep.tag.length c.length) =
          pyStrTake c (min dep.tag.length c.length) then
         OutLine.upToDate dep.name (.str (pyStrTake c (min dep.tag.length c.length)))
       else
         OutLine.updateAvailable dep.name (pyStrTake dep.tag (min dep.tag.length c.length))
           (.str (pyStrTake c (min dep.tag.length c.length)))] :=
  do_fetch_commit_output net dep c rest hclass hnet hne

theorem C10_witness :
    (do_fetch netShaDiff depE).output = [.updateAvailable "e" "00ff" (.str "00aa")] := by
  have h := commit_report_lines_use_truncated_values netShaDiff depE "00aabbcc11223344" []
    rfl rfl rfl
  exact h

end Geobuild
